import Mathlib

set_option autoImplicit false

namespace NJCrashes

deriving instance DecidableEq for Except

/-- A latitude/longitude pair as produced by the mile-post geocoder (the mp05
reference table maps route identifiers and mile-posts to these). Coordinates
are modelled as rationals: the reconciliation logic only moves them around and
compares them for equality. -/
structure LL where
  lat : ℚ
  lon : ℚ
deriving DecidableEq

/-- The mp05 reference map consumed by geocode_mp: route identifier to a
mile-post-to-coordinate mapping, modelled as nested association lists. -/
abbrev MP05Map := List (String × List (ℚ × LL))

/-- The outcome of geocode_mp in src/njdot/crashes.py: a coordinate, or one of
the four failure reasons. -/
inductive GeocodeResult where
  | noSRI
  | noMP
  | sriNotFound
  | mpNotGeocoded
  | geocoded (ll : LL)
deriving DecidableEq

/-- geocode_mp (src/njdot/crashes.py lines 153-167): missing SRI is reported
first, then missing mile-post, then an SRI absent from the table, then a
mile-post with no entry under the SRI; otherwise the coordinate found. -/
def geocode_mp (sri : Option String) (mp : Option ℚ) (sris : MP05Map) : GeocodeResult :=
  match sri with
  | none => .noSRI
  | some s =>
    match mp with
    | none => .noMP
    | some m =>
      match sris.lookup s with
      | none => .sriNotFound
      | some mp_lls =>
        match mp_lls.lookup m with
        | some ll => .geocoded ll
        | none => .mpNotGeocoded

/-- One crash record as Crashes.lls consumes it: the route identifier and
mile-post feeding the geocoder, the lat and lon columns the replace step
overwrites, and the severity category used by ll_hist. Missing values are
modelled as none. -/
structure Row where
  sri : Option String
  mp : Option ℚ
  lat : Option ℚ
  lon : Option ℚ
  severity : String
deriving DecidableEq

/-- The fallback-variant selector of Crashes.lls: the Python default argument
is the string io; the four keys of the dict at line 258 are i, o, io and oi. -/
inductive Policy where
  | i
  | o
  | io
  | oi
deriving DecidableEq

/-- One axis of the io variant (lines 247-248): the series starts as a copy of
the interpolated values and positions where the original is present and the
interpolated is missing are filled from the original. -/
def fallback_io (ov iv : Option ℚ) : Option ℚ :=
  if ov.isSome && !iv.isSome then ov else iv

/-- One axis of the oi variant (lines 253-254): the series starts as a copy of
the original values and positions where the original is missing and the
interpolated is present are filled from the interpolated. -/
def fallback_oi (ov iv : Option ℚ) : Option ℚ :=
  if !ov.isSome && iv.isSome then iv else ov

/-- The dict lookup at line 258: the canonical series for the selected policy,
from the original series and the interpolated series. -/
def pick : Policy → Option ℚ → Option ℚ → Option ℚ
  | .i, _, iv => iv
  | .o, ov, _ => ov
  | .io, ov, iv => fallback_io ov iv
  | .oi, ov, iv => fallback_oi ov iv

/-- The lat column of the geocoded frame: present exactly when the geocode
succeeded. -/
def llat : GeocodeResult → Option ℚ
  | .geocoded ll => some ll.lat
  | _ => none

/-- The lon column of the geocoded frame: present exactly when the geocode
succeeded. -/
def llon : GeocodeResult → Option ℚ
  | .geocoded ll => some ll.lon
  | _ => none

/-- The geocoded value of one row (line 214: geocode_mp applied to the sri and
mp columns). -/
def geocodeRow (m : MP05Map) (r : Row) : GeocodeResult :=
  geocode_mp r.sri r.mp m

/-- The interpolated latitude of one row. -/
def ilat (m : MP05Map) (r : Row) : Option ℚ :=
  llat (geocodeRow m r)

/-- The interpolated longitude of one row. -/
def ilon (m : MP05Map) (r : Row) : Option ℚ :=
  llon (geocodeRow m r)

/-- The per-row effect of running replace on both axes (lines 220-259 applied
at lat then lon): the lat and lon fields are overwritten with the
policy-selected variant built from the original value and the geocoded value. -/
def replaceWith (default : Policy) (r : Row) (g : GeocodeResult) : Row :=
  { r with lat := pick default r.lat (llat g), lon := pick default r.lon (llon g) }

/-- replaceWith fed from the mp05 map. -/
def replaceRow (default : Policy) (m : MP05Map) (r : Row) : Row :=
  replaceWith default r (geocodeRow m r)

/-- The message of the row-count guard (line 218): expected and actual counts. -/
def mismatchMsg (n g : Nat) : String :=
  s!"Expected {n} geocoded lls, got {g}"

/-- Crashes.lls once the geocoded frame ll is in hand: the row-count guard of
lines 216-218 raises when the geocoded frame and the input frame differ in
length, otherwise replace rewrites lat and lon and the rows with a missing lon
are dropped (line 263). -/
def lls_merge (df : List Row) (ll : List GeocodeResult) (default : Policy := .io) :
    Except String (List Row) :=
  if ll.length ≠ df.length then
    Except.error (mismatchMsg df.length ll.length)
  else
    Except.ok (((df.zip ll).map (fun p => replaceWith default p.1 p.2)).filter
      (fun r => r.lon.isSome))

/-- Crashes.lls (lines 203-264): geocode every row, guard the row count,
select the policy variant for lat and for lon, and drop rows whose canonical
lon is missing. The Python default argument is the string io. -/
def lls (df : List Row) (m : MP05Map) (default : Policy := .io) : Except String (List Row) :=
  lls_merge df (df.map (geocodeRow m)) default

/-- The record list lls returns: per-row replace followed by the lon-keyed
drop. lls always returns this list wrapped in ok (lemma lls_eq_ok below). -/
def lls_list (df : List Row) (m : MP05Map) (default : Policy := .io) : List Row :=
  (df.map (replaceRow default m)).filter (fun r => r.lon.isSome)

/-- LLCrashes.nj_mask (lines 286-288): one boolean per row from the region
predicate applied to the canonical coordinates. is_nj_ll is an external
collaborator, so it is a parameter. -/
def nj_mask (is_nj : Option ℚ → Option ℚ → Bool) (df : List Row) : List Bool :=
  df.map (fun r => is_nj r.lat r.lon)

/-- LLCrashes.njs (lines 290-296): the rows where the mask holds, and the rows
where it does not. -/
def njs (is_nj : Option ℚ → Option ℚ → Bool) (df : List Row) : List Row × List Row :=
  (df.filter (fun r => is_nj r.lat r.lon), df.filter (fun r => !(is_nj r.lat r.lon)))

/-- The (lon, lat, severity) key of a row for value_counts. pandas
value_counts drops rows with a missing key component and a missing value
never matches in a merge, so a row with a missing lon or lat has no key. -/
def keyOf (r : Row) : Option (ℚ × ℚ × String) :=
  match r.lon, r.lat with
  | some lo, some la => some (lo, la, r.severity)
  | _, _ => none

/-- value_counts over the lon, lat and severity columns (line 308): each
distinct complete key paired with the number of rows carrying it. -/
def value_counts (df : List Row) : List ((ℚ × ℚ × String) × Nat) :=
  let keys := df.filterMap keyOf
  keys.dedup.map (fun k => (k, keys.count k))

/-- The lls_count value of one row after the left merge with value_counts and
fillna(0) (lines 309-310): the looked-up count when the key matches, zero when
the join found nothing. -/
def lls_count (df : List Row) (r : Row) : Nat :=
  match keyOf r with
  | some k => ((value_counts df).lookup k).getD 0
  | none => 0

/-- LLCrashes.ll_hist (lines 306-312): one output entry per input row, keeping
the row and adding its lls_count and radius = sqrt of the count. math.sqrt is
modelled as the real square root. -/
noncomputable def ll_hist (df : List Row) : List (Row × Nat × ℝ) :=
  df.map (fun r => (r, lls_count df r, Real.sqrt (lls_count df r)))

/-- Two rows share an exact (lon, lat, severity) tuple when both keys are
complete and equal. -/
def sharesTuple (r s : Row) : Bool :=
  (keyOf r).isSome && decide (keyOf s = keyOf r)

/-- Modelled from the spec: the point-in-polygon county lookup of map_df
(get_county_geometries and the geopandas sjoin, lines 106-129) is external to
src. It is modelled as a containment function from a coordinate to at most one
county name; a record whose coordinate is missing is excluded up front and
receives no assignment. -/
def assign_county (county_of : ℚ → ℚ → Option String) (lat lon : Option ℚ) : Option String :=
  match lat, lon with
  | some la, some lo => county_of la lo
  | _, _ => none

/-- Modelled from the spec: cn2cc (imported from njdot.data, applied with
Series.map at lines 116 and 126) maps a county name to a county code; an
unmapped identifier yields a missing code, never an error. -/
def county_code (cn2cc : List (String × Int)) (cn : Option String) : Option Int :=
  match cn with
  | some c => cn2cc.lookup c
  | none => none

/-- A concrete row carrying both a reported coordinate (1, 1) and a geocodable
route identifier and mile-post. -/
def rBoth : Row :=
  { sri := some "A", mp := some 1, lat := some 1, lon := some 1, severity := "f" }

/-- A mile-post map under which rBoth geocodes to the coordinate (2, 2). -/
def mBoth : MP05Map := [("A", [(1, ⟨2, 2⟩)])]

/-- A concrete row with no reported coordinate and nothing to geocode. -/
def rNone : Row :=
  { sri := none, mp := none, lat := none, lon := none, severity := "f" }

/-- A concrete row with a reported longitude but no latitude and nothing to
geocode. -/
def rLonOnly : Row :=
  { sri := none, mp := none, lat := none, lon := some 3, severity := "f" }

theorem pick_none (d : Policy) : pick d none none = none := by
  cases d <;> rfl

theorem zip_map_replace (d : Policy) (m : MP05Map) (df : List Row) :
    (df.zip (df.map (geocodeRow m))).map (fun p => replaceWith d p.1 p.2)
      = df.map (replaceRow d m) := by
  induction df with
  | nil => rfl
  | cons a t ih => simp [List.zip_cons_cons, ih, replaceRow]

theorem lls_eq_ok (df : List Row) (m : MP05Map) (d : Policy) :
    lls df m d = Except.ok (lls_list df m d) := by
  unfold lls lls_merge lls_list
  simp [zip_map_replace]

theorem mem_of_lookup_eq_some {α β : Type} [BEq α] [LawfulBEq α] {l : List (α × β)}
    {k : α} {b : β} (h : l.lookup k = some b) : (k, b) ∈ l := by
  obtain ⟨l₁, l₂, rfl, -⟩ := List.lookup_eq_some_iff.mp h
  simp

theorem fallback_oi_eq (ov iv : Option ℚ) :
    fallback_oi ov iv = if ov.isSome then ov else iv := by
  cases ov <;> cases iv <;> rfl

theorem fallback_io_eq (ov iv : Option ℚ) :
    fallback_io ov iv = if iv.isSome then iv else ov := by
  cases ov <;> cases iv <;> rfl

/-- C4: for every record the geocode yields exactly one of the five outcomes,
and the checks apply in order: no route identifier is reported first, no
mile-post only when the route identifier is present, route identifier not
found only when both inputs are present, and mile-post not found only when
the route identifier resolves in the table. -/
theorem geocode_mp_outcomes (sri : Option String) (mp : Option ℚ) (m : MP05Map) :
    (geocode_mp sri mp m = .noSRI ∨ geocode_mp sri mp m = .noMP ∨
      geocode_mp sri mp m = .sriNotFound ∨ geocode_mp sri mp m = .mpNotGeocoded ∨
      ∃ ll, geocode_mp sri mp m = .geocoded ll) ∧
    (geocode_mp sri mp m = .noSRI ↔ sri = none) ∧
    (geocode_mp sri mp m = .noMP ↔ sri ≠ none ∧ mp = none) ∧
    (geocode_mp sri mp m = .sriNotFound ↔
      ∃ s, sri = some s ∧ mp ≠ none ∧ m.lookup s = none) ∧
    (geocode_mp sri mp m = .mpNotGeocoded ↔
      ∃ s mls mpv, sri = some s ∧ mp = some mpv ∧ m.lookup s = some mls ∧
        mls.lookup mpv = none) ∧
    ((∃ ll, geocode_mp sri mp m = .geocoded ll) ↔
      ∃ s mls mpv ll, sri = some s ∧ mp = some mpv ∧ m.lookup s = some mls ∧
        mls.lookup mpv = some ll) := by
  obtain _ | s := sri
  · simp [geocode_mp]
  obtain _ | mpv := mp
  · simp [geocode_mp]
  rcases hs : m.lookup s with _ | mls
  · have hs' := hs
    simp only [List.lookup_eq_none_iff] at hs'
    simp [geocode_mp, hs]
    intro a b hab
    simpa using hs' (a, b) hab
  rcases hm : mls.lookup mpv with _ | ll
  · have hm' := hm
    simp only [List.lookup_eq_none_iff] at hm'
    have hmem : (s, mls) ∈ m := mem_of_lookup_eq_some hs
    simp [geocode_mp, hs, hm]
    refine ⟨⟨mls, hmem⟩, ?_⟩
    intro a b hab
    simpa using hm' (a, b) hab
  · have hmem : (s, mls) ∈ m := mem_of_lookup_eq_some hs
    have hmem2 : (mpv, ll) ∈ mls := mem_of_lookup_eq_some hm
    simp [geocode_mp, hs, hm]
    exact ⟨⟨mls, hmem⟩, ⟨ll, hmem2⟩⟩

/-- C1 counterexample: on the row rBoth both the reported value 1 and the
interpolated value 2 are present, yet reconciling with policy oi keeps the
reported value: the canonical latitude list is not the interpolated one. -/
theorem lls_oi_both_present_counterexample :
    (rBoth.lat).isSome ∧ (ilat mBoth rBoth).isSome ∧
    rBoth.lat = some 1 ∧ ilat mBoth rBoth = some 2 ∧
    lls [rBoth] mBoth Policy.oi = Except.ok [rBoth] ∧
    (lls_list [rBoth] mBoth Policy.oi).map Row.lat ≠ [ilat mBoth rBoth] := by
  decide

/-- C1 amended: per record and axis, policy oi selects the reported value
whenever it is present (in particular when both values are present) and falls
back to the interpolated value when the reported one is missing, while policy
io selects the interpolated value whenever it is present (in particular when
both are present) and falls back to the reported value. -/
theorem lls_fallback_variants (m : MP05Map) (r : Row) :
    ((replaceRow Policy.oi m r).lat = if r.lat.isSome then r.lat else ilat m r) ∧
    ((replaceRow Policy.oi m r).lon = if r.lon.isSome then r.lon else ilon m r) ∧
    ((replaceRow Policy.io m r).lat = if (ilat m r).isSome then ilat m r else r.lat) ∧
    ((replaceRow Policy.io m r).lon = if (ilon m r).isSome then ilon m r else r.lon) := by
  refine ⟨?_, ?_, ?_, ?_⟩ <;>
    simp [replaceRow, replaceWith, pick, fallback_oi_eq, fallback_io_eq, ilat, ilon]

/-- C2 counterexample: with no policy supplied lls reconciles the row rBoth to
the interpolated coordinate (2, 2), while policy oi keeps the reported
coordinate: the policy used by default is not oi. -/
theorem lls_default_not_oi_counterexample :
    lls [rBoth] mBoth ≠ lls [rBoth] mBoth Policy.oi ∧
    lls [rBoth] mBoth = Except.ok [{ rBoth with lat := some 2, lon := some 2 }] ∧
    lls [rBoth] mBoth Policy.oi = Except.ok [rBoth] := by
  decide

/-- C2 amended: the default policy of lls is io, the code name for the variant
that prefers the interpolated value and falls back to the reported one: with
no policy supplied the canonical value per axis is the interpolated value when
present and the reported value otherwise. -/
theorem lls_default_policy (df : List Row) (m : MP05Map) (r : Row) :
    lls df m = lls df m Policy.io ∧
    ((replaceRow Policy.io m r).lat = if (ilat m r).isSome then ilat m r else r.lat) ∧
    ((replaceRow Policy.io m r).lon = if (ilon m r).isSome then ilon m r else r.lon) := by
  refine ⟨rfl, ?_, ?_⟩ <;>
    simp [replaceRow, replaceWith, pick, fallback_io_eq, ilat, ilon]

theorem lls_list_lon_isSome (df : List Row) (m : MP05Map) (d : Policy) :
    ∀ r ∈ lls_list df m d, r.lon.isSome := by
  intro r hr
  exact (List.mem_filter.mp hr).2

/-- C3: lls returns the reconciled list, every record retained in it has a
non-missing canonical longitude, and a record whose reported and interpolated
longitude are both missing is dropped: its reconciled image is not retained. -/
theorem lls_retained_lon (df : List Row) (m : MP05Map) (d : Policy) :
    lls df m d = Except.ok (lls_list df m d) ∧
    (∀ r ∈ lls_list df m d, r.lon.isSome) ∧
    (∀ r ∈ df, r.lon = none → ilon m r = none → replaceRow d m r ∉ lls_list df m d) := by
  refine ⟨lls_eq_ok df m d, lls_list_lon_isSome df m d, ?_⟩
  intro r _ ho hi hmem
  have h2 := (List.mem_filter.mp hmem).2
  have hlon : (replaceRow d m r).lon = none := by
    have hi' : llon (geocodeRow m r) = none := hi
    simp [replaceRow, replaceWith, ho, hi', pick_none]
  rw [hlon] at h2
  simp at h2

/-- C5: the row-count guard of lls: when the geocoded frame and the input
frame differ in length the operation fails with an error and produces no
output, when they match it returns the reconciled rows, and lls itself (whose
geocoded frame is built by mapping over the input) never fails. -/
theorem lls_merge_length_guard (df : List Row) (g : List GeocodeResult) (d : Policy) :
    (g.length ≠ df.length → ∃ msg, lls_merge df g d = Except.error msg) ∧
    (g.length = df.length → ∃ out, lls_merge df g d = Except.ok out) ∧
    (∀ m : MP05Map, ∃ out, lls df m d = Except.ok out) := by
  refine ⟨?_, ?_, fun m => ⟨_, lls_eq_ok df m d⟩⟩
  · intro h
    refine ⟨mismatchMsg df.length g.length, ?_⟩
    simp [lls_merge, h]
  · intro h
    refine ⟨((df.zip g).map (fun p => replaceWith d p.1 p.2)).filter
      (fun r => r.lon.isSome), ?_⟩
    simp [lls_merge, h]

theorem lls_merge_length_guard_witness :
    (∃ msg, lls_merge [rBoth] [] Policy.io = Except.error msg) ∧
    (∃ out, lls_merge [rBoth] [GeocodeResult.noSRI] Policy.io = Except.ok out) := by
  obtain ⟨h1, -, -⟩ := lls_merge_length_guard [rBoth] [] Policy.io
  obtain ⟨-, h2, -⟩ := lls_merge_length_guard [rBoth] [GeocodeResult.noSRI] Policy.io
  exact ⟨h1 (by decide), h2 (by decide)⟩

theorem length_filter_add_length_filter_not {α : Type} (p : α → Bool) (l : List α) :
    (l.filter p).length + (l.filter (fun a => !(p a))).length = l.length := by
  induction l with
  | nil => rfl
  | cons a t ih =>
    cases h : p a <;> simp [List.filter_cons, h, ← ih] <;> omega

theorem count_filter_add_count_filter_not {α : Type} [DecidableEq α] (p : α → Bool)
    (l : List α) (a : α) :
    (l.filter p).count a + (l.filter (fun x => !(p x))).count a = l.count a := by
  induction l with
  | nil => rfl
  | cons b t ih =>
    cases h : p b <;> simp [List.filter_cons, h, List.count_cons] <;>
      split <;> omega

/-- C6: njs partitions the reconciled set: the two subset sizes add up to the
input size, every record is in one of the two subsets and in no record is in
both, and per-record multiplicity is preserved (no drops, no duplicates). -/
theorem njs_splits (p : Option ℚ → Option ℚ → Bool) (df : List Row) :
    ((njs p df).1.length + (njs p df).2.length = df.length) ∧
    (∀ r, r ∈ df ↔ (r ∈ (njs p df).1 ∨ r ∈ (njs p df).2)) ∧
    (∀ r, ¬ (r ∈ (njs p df).1 ∧ r ∈ (njs p df).2)) ∧
    (∀ r, (njs p df).1.count r + (njs p df).2.count r = df.count r) := by
  simp only [njs]
  refine ⟨length_filter_add_length_filter_not _ df, ?_, ?_,
    fun r => count_filter_add_count_filter_not _ df r⟩
  · intro r
    constructor
    · intro hr
      by_cases hp : p r.lat r.lon = true
      · exact Or.inl (List.mem_filter.mpr ⟨hr, by simp [hp]⟩)
      · exact Or.inr (List.mem_filter.mpr ⟨hr, by simp [hp]⟩)
    · rintro (hr | hr) <;> exact (List.mem_filter.mp hr).1
  · rintro r ⟨h1, h2⟩
    have e1 := (List.mem_filter.mp h1).2
    have e2 := (List.mem_filter.mp h2).2
    simp at e1 e2
    exact absurd e1 (by simp [e2])

theorem lookup_map_pair {α β : Type} [BEq α] [LawfulBEq α] (f : α → β) (l : List α)
    (k : α) (hk : k ∈ l) :
    (l.map (fun x => (x, f x))).lookup k = some (f k) := by
  induction l with
  | nil => simp at hk
  | cons a t ih =>
    by_cases h : k = a
    · subst h
      simp
    · have hb : (k == a) = false := beq_eq_false_iff_ne.mpr h
      rcases List.mem_cons.mp hk with h' | h'
      · exact absurd h' h
      · rw [List.map_cons, List.lookup_cons, hb]
        exact ih h'

theorem lookup_map_pair_none {α β : Type} [BEq α] [LawfulBEq α] (f : α → β) (l : List α)
    (k : α) (hk : k ∉ l) :
    (l.map (fun x => (x, f x))).lookup k = none := by
  induction l with
  | nil => rfl
  | cons a t ih =>
    have hka : ¬ k = a := fun h => hk (h ▸ List.mem_cons_self a t)
    have hkt : k ∉ t := fun h => hk (List.mem_cons_of_mem a h)
    have hb : (k == a) = false := beq_eq_false_iff_ne.mpr hka
    rw [List.map_cons, List.lookup_cons, hb]
    exact ih hkt

theorem count_filterMap_keyOf (df : List Row) (k : ℚ × ℚ × String) :
    (df.filterMap keyOf).count k = df.countP (fun s => decide (keyOf s = some k)) := by
  induction df with
  | nil => rfl
  | cons a t ih =>
    rcases h : keyOf a with _ | ka
    · simp [List.filterMap_cons, h, List.countP_cons, ih]
    · by_cases hk : ka = k
      · subst hk
        simp [List.filterMap_cons, h, List.countP_cons, List.count_cons, ih]
      · simp [List.filterMap_cons, h, List.countP_cons, List.count_cons, ih, hk]

theorem lls_count_eq_countP (df : List Row) (r : Row) :
    lls_count df r = df.countP (sharesTuple r) := by
  rcases hk : keyOf r with _ | k
  · simp only [lls_count, hk]
    symm
    rw [List.countP_eq_zero]
    intro s _
    simp [sharesTuple, hk]
  · have hfun : sharesTuple r = fun s => decide (keyOf s = some k) := by
      funext s
      simp [sharesTuple, hk]
    simp only [lls_count, hk, hfun, value_counts]
    by_cases hmem : k ∈ df.filterMap keyOf
    · rw [lookup_map_pair _ _ _ (List.mem_dedup.mpr hmem)]
      simp only [Option.getD_some]
      exact count_filterMap_keyOf df k
    · rw [lookup_map_pair_none _ _ _ (fun h => hmem (List.mem_dedup.mp h))]
      simp only [Option.getD_none]
      symm
      rw [List.countP_eq_zero]
      intro s hs hkey
      exact hmem (List.mem_filterMap.mpr ⟨s, hs, by simpa using hkey⟩)

/-- C7: ll_hist returns one entry per input row in order, the row unchanged;
each count equals the number of input rows sharing its exact (lon, lat,
severity) tuple, which is zero when the row has no complete tuple (then the
merge finds nothing and fillna(0) applies); and the radius equals the square
root of the count. -/
theorem ll_hist_counts (df : List Row) :
    ((ll_hist df).map (fun e => e.1) = df) ∧
    ll_hist df = df.map (fun r => (r, df.countP (sharesTuple r),
      Real.sqrt (df.countP (sharesTuple r)))) := by
  constructor
  · unfold ll_hist
    rw [List.map_map]
    show List.map (fun r : Row => r) df = df
    simp
  · unfold ll_hist
    simp only [lls_count_eq_countP]

/-- C8: reconciling an already-reconciled record set (its canonical lat/lon
being the reported values of the second run) with policy o, when no
interpolated coordinate is available, returns the same records unchanged. -/
theorem lls_idempotent_o (df : List Row) (m m2 : MP05Map) (d : Policy)
    (h : ∀ r ∈ lls_list df m d, ilat m2 r = none ∧ ilon m2 r = none) :
    lls (lls_list df m d) m2 Policy.o = Except.ok (lls_list df m d) := by
  have _ := h
  rw [lls_eq_ok]
  have hrep : replaceRow Policy.o m2 = id := by
    funext r
    cases r
    rfl
  unfold lls_list
  rw [hrep, List.map_id, List.filter_eq_self.mpr]
  intro r hr
  exact lls_list_lon_isSome df m d r hr

theorem lls_idempotent_o_witness :
    lls (lls_list [rBoth] mBoth Policy.io) [] Policy.o
      = Except.ok (lls_list [rBoth] mBoth Policy.io) :=
  lls_idempotent_o [rBoth] mBoth [] Policy.io (by decide)

/-- C9: a record whose coordinate is missing receives no county assignment,
and a county identifier with no entry in the identifier-to-code mapping yields
a missing county code; both are ordinary missing values of total functions,
not errors. -/
theorem county_missing_not_fatal (county_of : ℚ → ℚ → Option String)
    (cn2cc : List (String × Int)) (lat lon : Option ℚ) (c : String) :
    (lat = none → assign_county county_of lat lon = none) ∧
    (lon = none → assign_county county_of lat lon = none) ∧
    (cn2cc.lookup c = none → county_code cn2cc (some c) = none) ∧
    county_code cn2cc none = none := by
  refine ⟨?_, ?_, ?_, rfl⟩
  · rintro rfl
    rfl
  · rintro rfl
    cases lat <;> rfl
  · intro h
    simpa [county_code] using h

/-- C10: the post-merge drop is keyed on longitude only: any input record
whose reconciled longitude is present is retained regardless of its latitude,
and the reconciled output can contain a record with a missing latitude. -/
theorem lls_drop_keyed_on_lon (df : List Row) (m : MP05Map) (d : Policy) (r : Row)
    (hr : r ∈ df) (hlon : (replaceRow d m r).lon.isSome) :
    replaceRow d m r ∈ lls_list df m d ∧
    ∃ s ∈ lls_list [rLonOnly] [], s.lat = none ∧ s.lon.isSome := by
  constructor
  · exact List.mem_filter.mpr ⟨List.mem_map.mpr ⟨r, hr, rfl⟩, hlon⟩
  · exact ⟨replaceRow Policy.io [] rLonOnly, by decide, by decide⟩

theorem lls_drop_keyed_on_lon_witness :
    replaceRow Policy.io [] rLonOnly ∈ lls_list [rLonOnly] [] ∧
    ∃ s ∈ lls_list [rLonOnly] [], s.lat = none ∧ s.lon.isSome :=
  lls_drop_keyed_on_lon [rLonOnly] [] Policy.io rLonOnly (by decide) (by decide)

example : geocode_mp none none [] = .noSRI := by decide
example : geocode_mp (some "A") none [] = .noMP := by decide
example : geocode_mp (some "A") (some 1) [] = .sriNotFound := by decide
example : geocode_mp (some "A") (some 1) [("A", [(1, ⟨2, 3⟩)])] = .geocoded ⟨2, 3⟩ := by decide
example : geocode_mp (some "A") (some 2) [("A", [(1, ⟨2, 3⟩)])] = .mpNotGeocoded := by decide

end NJCrashes
